import Mathlib

/-!
Verification of the reconciliation core of the AI-rules-sync extension
(src/src/extension.ts): the Resolver (method _loadContent) and the
Synchronizer (method _saveToAllFiles).

The file system is modelled explicitly: each absolute path maps to a
ReadResult recording whether existsSync sees it, whether statSync succeeds
(and with which mtime ISO string), and whether readFileSync succeeds (and
with which content).  Directory existence, mkdirSync and writeFileSync
success are modelled by predicates on paths; a successful writeFileSync
replaces the file wholesale with the given content.
-/

namespace AgentRulesSync

/-- Disk state of one absolute path, as observed by the node fs calls used in
extension.ts. `absent` means existsSync is false. `present stat read` means
existsSync is true; `stat = some m` means statSync succeeds with mtime ISO
string `m` (none: statSync throws); `read = some c` means readFileSync
succeeds with content `c` (none: readFileSync throws). -/
inductive ReadResult where
  | absent : ReadResult
  | present : Option String → Option String → ReadResult
deriving DecidableEq, Repr

/-- The file-system state visible to the extension: file states, directory
existence, whether mkdirSync (recursive) would succeed on a directory,
whether writeFileSync would succeed on a full path, the message carried by a
thrown error, and the mtime string newly written files receive. -/
structure FS where
  files : String → ReadResult
  dirs : String → Bool
  mkdirOk : String → Bool
  writeOk : String → Bool
  errMsg : String → String
  mtimeNow : String

/-- path.join(workspaceFolder.uri.fsPath, filePath) as used in extension.ts. -/
def joinPath (base p : String) : String := base ++ "/" ++ p

/-- Split a character list at the path separator. -/
def splitSegsAux : List Char → List Char → List (List Char)
  | [], acc => [acc.reverse]
  | c :: cs, acc =>
      if c = '/' then acc.reverse :: splitSegsAux cs [] else splitSegsAux cs (c :: acc)

/-- Split a path into its separator-delimited segments. -/
def splitSegs (s : String) : List String :=
  (splitSegsAux s.toList []).map (fun l => String.mk l)

/-- Rebuild a path from segments. -/
def joinSegs : List String → String
  | [] => ""
  | [x] => x
  | x :: xs => x ++ "/" ++ joinSegs xs

/-- path.dirname: everything before the last path separator. -/
def dirname (p : String) : String :=
  let parts := splitSegs p
  if parts.length ≤ 1 then "." else joinSegs parts.dropLast

/-- The chain of directories created by fs.mkdirSync(d, recursive): every
proper segment prefix of d, and d itself. -/
def ancestorChain (d : String) : List String :=
  let parts := splitSegs d
  ((List.range (parts.length - 1)).map (fun i => joinSegs (parts.take (i + 1)))) ++ [d]

/-- Effect of fs.mkdirSync(d, recursive) when it succeeds: d and all its
ancestors now exist. -/
def mkdirRecursive (fs : FS) (d : String) : FS :=
  { fs with dirs := fun x => fs.dirs x || (ancestorChain d).contains x }

/-- One element of the results array built by _saveToAllFiles. -/
structure SaveOutcome where
  file : String
  success : Bool
  error : Option String
deriving DecidableEq, Repr

/-- One element of the fileStatuses array built by _loadContent.  The source
field name is exists, a reserved word in Lean, hence the trailing
underscore. -/
structure FileStatus where
  file : String
  exists_ : Bool
  lastModified : Option String
deriving DecidableEq, Repr

/-- Body of the try block at the write site of _saveToAllFiles once the
directory exists: fs.writeFileSync(fullPath, content, utf8).  On success the
file becomes a present, stat-able, readable file holding exactly content; on
failure the thrown error is caught and recorded for this path. -/
def writeAttempt (fs : FS) (filePath fullPath content : String) : SaveOutcome × FS :=
  if fs.writeOk fullPath then
    ({ file := filePath, success := true, error := none },
     { fs with files := fun q =>
         if q = fullPath then .present (some fs.mtimeNow) (some content) else fs.files q })
  else
    ({ file := filePath, success := false, error := some (fs.errMsg fullPath) }, fs)

/-- One iteration of the for-loop of _saveToAllFiles (lines 173-194 of
extension.ts): join the path, take its dirname, create the directory chain if
the directory is missing, then write; any throw is caught and recorded as
this path's failure outcome. -/
def saveOne (fs : FS) (base filePath content : String) : SaveOutcome × FS :=
  let fullPath := joinPath base filePath
  let dir := dirname fullPath
  if fs.dirs dir then
    writeAttempt fs filePath fullPath content
  else if fs.mkdirOk dir then
    writeAttempt (mkdirRecursive fs dir) filePath fullPath content
  else
    ({ file := filePath, success := false, error := some (fs.errMsg dir) }, fs)

/-- The whole for-loop of _saveToAllFiles: process every configured path in
order, threading the file-system state, and collect one outcome per path. -/
def saveLoop (fs : FS) (base : String) (paths : List String) (content : String) :
    List SaveOutcome × FS :=
  match paths with
  | [] => ([], fs)
  | p :: rest =>
      let r := saveOne fs base p content
      let rs := saveLoop r.2 base rest content
      (r.1 :: rs.1, rs.2)

/-- The user feedback chosen at the end of _saveToAllFiles: the information
message with the success count when no outcome failed, otherwise the error
message with the success count and the failure count. -/
inductive Feedback where
  | info : Nat → Feedback
  | err : Nat → Nat → Feedback
deriving DecidableEq, Repr

/-- The branch on results.filter at lines 197-205 of extension.ts. -/
def feedback (results : List SaveOutcome) : Feedback :=
  let successful := (results.filter (fun r => r.success)).length
  let failed := results.filter (fun r => !r.success)
  if failed.length = 0 then .info successful else .err successful failed.length

/-- What a call to _saveToAllFiles communicates: either the single top-level
"No workspace folder found" error (no outcomes computed), or the results
array sent to the webview together with the aggregate feedback. -/
inductive SaveReport where
  | noWorkspace : SaveReport
  | saved : List SaveOutcome → Feedback → SaveReport
deriving DecidableEq, Repr

/-- _saveToAllFiles (extension.ts lines 158-212): with no workspace folder it
shows a single error and returns before touching any path; otherwise it runs
the per-path save loop and reports the outcomes with aggregate feedback.
Returns the report together with the file system after the call. -/
def _saveToAllFiles (fs : FS) (workspaceFolder : Option String) (syncedFiles : List String)
    (content : String) : SaveReport × FS :=
  match workspaceFolder with
  | none => (.noWorkspace, fs)
  | some base =>
      let r := saveLoop fs base syncedFiles content
      (.saved r.1 (feedback r.1), r.2)

/-- First for-loop of _loadContent (extension.ts lines 239-264): scan the
paths in order; an absent path, or a present path whose statSync or
readFileSync throws (caught), yields an exists=false status and the scan
continues; the first present path whose stat and read both succeed yields an
exists=true status with its mtime, its content becomes the result, and the
loop breaks. -/
def loadScan (fs : FS) (base : String) : List String → String × List FileStatus
  | [] => ("", [])
  | filePath :: rest =>
      match fs.files (joinPath base filePath) with
      | .present (some m) (some c) =>
          (c, [{ file := filePath, exists_ := true, lastModified := some m }])
      | .absent =>
          let r := loadScan fs base rest
          (r.1, { file := filePath, exists_ := false, lastModified := none } :: r.2)
      | .present _ _ =>
          let r := loadScan fs base rest
          (r.1, { file := filePath, exists_ := false, lastModified := none } :: r.2)

/-- Status computed by the second for-loop of _loadContent for one path:
existsSync then statSync; a stat throw is caught as exists=false.  No read is
attempted here. -/
def statusOf (fs : FS) (base filePath : String) : FileStatus :=
  match fs.files (joinPath base filePath) with
  | .present (some m) _ => { file := filePath, exists_ := true, lastModified := some m }
  | .present none _ => { file := filePath, exists_ := false, lastModified := none }
  | .absent => { file := filePath, exists_ := false, lastModified := none }

/-- Second for-loop of _loadContent (extension.ts lines 268-291): statuses
for syncedFiles[1], syncedFiles[2], ... appended after whatever the first
loop already pushed. -/
def statusRest (fs : FS) (base : String) (syncedFiles : List String) : List FileStatus :=
  (syncedFiles.drop 1).map (statusOf fs base)

/-- _loadContent (extension.ts lines 218-299): with no workspace folder it
posts empty content and an empty file list; otherwise it posts the content
found by the priority scan and the concatenation of the statuses pushed by
both loops. -/
def _loadContent (fs : FS) (workspaceFolder : Option String) (syncedFiles : List String) :
    String × List FileStatus :=
  match workspaceFolder with
  | none => ("", [])
  | some base =>
      let r := loadScan fs base syncedFiles
      (r.1, r.2 ++ statusRest fs base syncedFiles)

/-- A path is an eligible winner for the priority scan exactly when it is
present and both statSync and readFileSync succeed; the value is its
content. -/
def readableContent (fs : FS) (fullPath : String) : Option String :=
  match fs.files fullPath with
  | .present (some _) (some c) => some c
  | _ => none

/-- A file system with no files, no directories, and every mkdir and write
succeeding. -/
def emptyFS : FS :=
  { files := fun _ => .absent
    dirs := fun _ => false
    mkdirOk := fun _ => true
    writeOk := fun _ => true
    errMsg := fun _ => "io error"
    mtimeNow := "2024-01-01T00:00:00.000Z" }

/-! Helper lemmas about one save step. -/

lemma writeAttempt_file (fs : FS) (fp full c : String) :
    (writeAttempt fs fp full c).1.file = fp := by
  unfold writeAttempt; split <;> rfl

lemma saveOne_file (fs : FS) (base p c : String) : (saveOne fs base p c).1.file = p := by
  simp only [saveOne]
  split
  · exact writeAttempt_file ..
  · split
    · exact writeAttempt_file ..
    · rfl

lemma writeAttempt_error_iff (fs : FS) (fp full c : String) :
    ((writeAttempt fs fp full c).1.success = true → (writeAttempt fs fp full c).1.error = none) ∧
      ((writeAttempt fs fp full c).1.success = false →
        (writeAttempt fs fp full c).1.error ≠ none) := by
  unfold writeAttempt; split <;> simp

lemma saveOne_error_iff (fs : FS) (base p c : String) :
    ((saveOne fs base p c).1.success = true → (saveOne fs base p c).1.error = none) ∧
      ((saveOne fs base p c).1.success = false → (saveOne fs base p c).1.error ≠ none) := by
  simp only [saveOne]
  split
  · exact writeAttempt_error_iff ..
  · split
    · exact writeAttempt_error_iff ..
    · simp

lemma writeAttempt_mtimeNow (fs : FS) (fp full c : String) :
    (writeAttempt fs fp full c).2.mtimeNow = fs.mtimeNow := by
  unfold writeAttempt; split <;> rfl

lemma mkdirRecursive_mtimeNow (fs : FS) (d : String) :
    (mkdirRecursive fs d).mtimeNow = fs.mtimeNow := rfl

lemma saveOne_mtimeNow (fs : FS) (base p c : String) :
    (saveOne fs base p c).2.mtimeNow = fs.mtimeNow := by
  simp only [saveOne]
  split
  · exact writeAttempt_mtimeNow ..
  · split
    · exact writeAttempt_mtimeNow ..
    · rfl

lemma writeAttempt_dirs (fs : FS) (fp full c : String) :
    (writeAttempt fs fp full c).2.dirs = fs.dirs := by
  unfold writeAttempt; split <;> rfl

lemma mkdirRecursive_dirs_mono (fs : FS) (d x : String) (h : fs.dirs x = true) :
    (mkdirRecursive fs d).dirs x = true := by
  simp [mkdirRecursive, h]

lemma saveOne_dirs_mono (fs : FS) (base p c d : String) (h : fs.dirs d = true) :
    (saveOne fs base p c).2.dirs d = true := by
  simp only [saveOne]
  split
  · rw [writeAttempt_dirs]; exact h
  · split
    · rw [writeAttempt_dirs]; exact mkdirRecursive_dirs_mono fs _ d h
    · exact h

lemma writeAttempt_files_cases (fs : FS) (fp full c x : String) :
    (writeAttempt fs fp full c).2.files x = fs.files x ∨
      (writeAttempt fs fp full c).2.files x = .present (some fs.mtimeNow) (some c) := by
  unfold writeAttempt
  split
  · by_cases hx : x = full
    · right; simp [hx]
    · left; simp [hx]
  · left; rfl

lemma mkdirRecursive_files (fs : FS) (d : String) :
    (mkdirRecursive fs d).files = fs.files := rfl

lemma saveOne_files_cases (fs : FS) (base p c x : String) :
    (saveOne fs base p c).2.files x = fs.files x ∨
      (saveOne fs base p c).2.files x = .present (some fs.mtimeNow) (some c) := by
  simp only [saveOne]
  split
  · exact writeAttempt_files_cases ..
  · split
    · have h := writeAttempt_files_cases (mkdirRecursive fs (dirname (joinPath base p))) p
        (joinPath base p) c x
      rw [mkdirRecursive_files] at h
      exact h
    · left; rfl

lemma writeAttempt_success_files (fs : FS) (fp full c : String)
    (h : (writeAttempt fs fp full c).1.success = true) :
    (writeAttempt fs fp full c).2.files full = .present (some fs.mtimeNow) (some c) := by
  unfold writeAttempt at *
  split at h
  · simp [writeAttempt, *]
  · simp at h

lemma saveOne_success_files (fs : FS) (base p c : String)
    (h : (saveOne fs base p c).1.success = true) :
    (saveOne fs base p c).2.files (joinPath base p) = .present (some fs.mtimeNow) (some c) := by
  simp only [saveOne] at h ⊢
  split at h
  next hd =>
    rw [if_pos hd]
    exact writeAttempt_success_files fs p (joinPath base p) c h
  next hd =>
    split at h
    next hm =>
      rw [if_neg hd, if_pos hm]
      exact writeAttempt_success_files (mkdirRecursive fs (dirname (joinPath base p))) p
        (joinPath base p) c h
    next hm =>
      simp at h

lemma self_mem_ancestorChain (d : String) : d ∈ ancestorChain d := by
  simp [ancestorChain]

lemma saveOne_success_dirs (fs : FS) (base p c : String)
    (h : (saveOne fs base p c).1.success = true) :
    (saveOne fs base p c).2.dirs (dirname (joinPath base p)) = true := by
  simp only [saveOne] at h ⊢
  split at h
  next hd =>
    rw [if_pos hd, writeAttempt_dirs]
    exact hd
  next hd =>
    split at h
    next hm =>
      rw [if_neg hd, if_pos hm, writeAttempt_dirs]
      simp only [mkdirRecursive, Bool.or_eq_true]
      exact Or.inr (List.elem_eq_true_of_mem (self_mem_ancestorChain _))
    next hm =>
      simp at h

/-! Helper lemmas about the whole save loop. -/

lemma saveLoop_cons (fs : FS) (base p c : String) (rest : List String) :
    saveLoop fs base (p :: rest) c =
      ((saveOne fs base p c).1 :: (saveLoop (saveOne fs base p c).2 base rest c).1,
        (saveLoop (saveOne fs base p c).2 base rest c).2) := rfl

lemma saveLoop_map_file (base c : String) (paths : List String) :
    ∀ fs : FS, ((saveLoop fs base paths c).1.map (fun r => r.file)) = paths := by
  induction paths with
  | nil => intro fs; rfl
  | cons p rest ih =>
      intro fs
      rw [saveLoop_cons]
      simp only [List.map_cons, saveOne_file, ih]

lemma saveLoop_outcome_error (base c : String) (paths : List String) :
    ∀ fs : FS, ∀ r ∈ (saveLoop fs base paths c).1,
      (r.success = true → r.error = none) ∧ (r.success = false → r.error ≠ none) := by
  induction paths with
  | nil => intro fs r hr; simp [saveLoop] at hr
  | cons p rest ih =>
      intro fs r hr
      rw [saveLoop_cons] at hr
      rcases List.mem_cons.mp hr with h | h
      · subst h; exact saveOne_error_iff ..
      · exact ih _ r h

lemma saveLoop_mtimeNow (base c : String) (paths : List String) :
    ∀ fs : FS, (saveLoop fs base paths c).2.mtimeNow = fs.mtimeNow := by
  induction paths with
  | nil => intro fs; rfl
  | cons p rest ih =>
      intro fs
      rw [saveLoop_cons]
      exact (ih _).trans (saveOne_mtimeNow ..)

lemma saveLoop_dirs_mono (base c d : String) (paths : List String) :
    ∀ fs : FS, fs.dirs d = true → (saveLoop fs base paths c).2.dirs d = true := by
  induction paths with
  | nil => intro fs h; exact h
  | cons p rest ih =>
      intro fs h
      rw [saveLoop_cons]
      exact ih _ (saveOne_dirs_mono fs base p c d h)

lemma saveLoop_files_stable (base c x : String) (paths : List String) :
    ∀ fs : FS, fs.files x = .present (some fs.mtimeNow) (some c) →
      (saveLoop fs base paths c).2.files x = .present (some fs.mtimeNow) (some c) := by
  induction paths with
  | nil => intro fs h; exact h
  | cons p rest ih =>
      intro fs h
      rw [saveLoop_cons]
      have hm : (saveOne fs base p c).2.mtimeNow = fs.mtimeNow := saveOne_mtimeNow ..
      have h1 : (saveOne fs base p c).2.files x =
          .present (some (saveOne fs base p c).2.mtimeNow) (some c) := by
        rw [hm]
        rcases saveOne_files_cases fs base p c x with hc | hc
        · rw [hc, h]
        · rw [hc]
      have h2 := ih (saveOne fs base p c).2 h1
      rw [hm] at h2
      exact h2

lemma saveLoop_all_success (base c : String) (paths : List String) :
    ∀ fs : FS, (∀ r ∈ (saveLoop fs base paths c).1, r.success = true) →
      ∀ p ∈ paths,
        (saveLoop fs base paths c).2.files (joinPath base p) =
            .present (some fs.mtimeNow) (some c) ∧
          (saveLoop fs base paths c).2.dirs (dirname (joinPath base p)) = true := by
  induction paths with
  | nil => intro fs _ p hp; cases hp
  | cons q rest ih =>
      intro fs hall p hp
      have hs0 : (saveOne fs base q c).1.success = true := by
        apply hall
        rw [saveLoop_cons]
        exact List.mem_cons_self ..
      have hall1 : ∀ r ∈ (saveLoop (saveOne fs base q c).2 base rest c).1, r.success = true := by
        intro r hr
        apply hall
        rw [saveLoop_cons]
        exact List.mem_cons_of_mem _ hr
      rcases List.mem_cons.mp hp with hq | hq
      · subst hq
        constructor
        · rw [saveLoop_cons]
          have h1 := saveOne_success_files fs base p c hs0
          have h2 : (saveOne fs base p c).2.files (joinPath base p) =
              .present (some (saveOne fs base p c).2.mtimeNow) (some c) := by
            rw [saveOne_mtimeNow]; exact h1
          have h3 := saveLoop_files_stable base c (joinPath base p) rest
            (saveOne fs base p c).2 h2
          rw [saveOne_mtimeNow] at h3
          exact h3
        · rw [saveLoop_cons]
          exact saveLoop_dirs_mono base c _ rest _ (saveOne_success_dirs fs base p c hs0)
      · have := ih (saveOne fs base q c).2 hall1 p hq
        rw [saveOne_mtimeNow] at this
        rw [saveLoop_cons]
        exact this

/-! Helper lemmas about the priority scan of _loadContent. -/

lemma loadScan_winner (fs : FS) (base p m c : String) (rest : List String)
    (h : fs.files (joinPath base p) = .present (some m) (some c)) :
    loadScan fs base (p :: rest) =
      (c, [{ file := p, exists_ := true, lastModified := some m }]) := by
  simp [loadScan, h]

lemma readableContent_eq_some (fs : FS) (full c : String)
    (h : readableContent fs full = some c) :
    ∃ m, fs.files full = .present (some m) (some c) := by
  unfold readableContent at h
  cases hf : fs.files full with
  | absent => rw [hf] at h; simp at h
  | present st rd =>
      cases st with
      | none => rw [hf] at h; simp at h
      | some m =>
          cases rd with
          | none => rw [hf] at h; simp at h
          | some c0 =>
              rw [hf] at h
              simp at h
              subst h
              exact ⟨m, rfl⟩

lemma loadScan_skip (fs : FS) (base p : String) (rest : List String)
    (h : readableContent fs (joinPath base p) = none) :
    loadScan fs base (p :: rest) =
      ((loadScan fs base rest).1,
        { file := p, exists_ := false, lastModified := none } :: (loadScan fs base rest).2) := by
  unfold readableContent at h
  cases hf : fs.files (joinPath base p) with
  | absent => simp [loadScan, hf]
  | present st rd =>
      cases st with
      | none => simp [loadScan, hf]
      | some m =>
          cases rd with
          | none => simp [loadScan, hf]
          | some c0 => rw [hf] at h; simp at h

lemma loadScan_content_winner (base w cw : String) (pre : List String) :
    ∀ (fs : FS) (post : List String),
      (∀ p ∈ pre, readableContent fs (joinPath base p) = none) →
      readableContent fs (joinPath base w) = some cw →
      (loadScan fs base (pre ++ w :: post)).1 = cw := by
  induction pre with
  | nil =>
      intro fs post _ hw
      obtain ⟨m, hm⟩ := readableContent_eq_some fs (joinPath base w) cw hw
      rw [List.nil_append, loadScan_winner fs base w m cw post hm]
  | cons p pre ih =>
      intro fs post hpre hw
      rw [List.cons_append,
        loadScan_skip fs base p (pre ++ w :: post) (hpre p (List.mem_cons_self ..))]
      exact ih fs post (fun q hq => hpre q (List.mem_cons_of_mem _ hq)) hw

lemma loadScan_all_absent (base : String) (paths : List String) :
    ∀ fs : FS, (∀ p ∈ paths, fs.files (joinPath base p) = .absent) →
      (loadScan fs base paths).1 = "" ∧
        ∀ s ∈ (loadScan fs base paths).2, s.exists_ = false := by
  induction paths with
  | nil => intro fs _; exact ⟨rfl, by simp [loadScan]⟩
  | cons p rest ih =>
      intro fs h
      have hp : fs.files (joinPath base p) = .absent := h p (List.mem_cons_self ..)
      have ih1 := ih fs (fun q hq => h q (List.mem_cons_of_mem _ hq))
      constructor
      · simp [loadScan, hp, ih1.1]
      · intro s hs
        simp only [loadScan, hp] at hs
        rcases List.mem_cons.mp hs with h1 | h1
        · rw [h1]
        · exact ih1.2 s h1

lemma statusOf_absent (fs : FS) (base p : String)
    (h : fs.files (joinPath base p) = .absent) : (statusOf fs base p).exists_ = false := by
  simp [statusOf, h]

/-! Concrete file systems used to instantiate the theorems. -/

/-- A file system where writing to the full path w/b fails and everything
else succeeds. -/
def fsFailB : FS := { emptyFS with writeOk := fun q => !(q == "w/b") }

/-- A file system where only w/b exists, stat-able and readable with content
"hello". -/
def fsC3 : FS :=
  { emptyFS with
    files := fun q => if q = "w/b" then .present (some "t") (some "hello") else .absent }

/-- A file system where only w/b exists; its statSync succeeds but its
readFileSync throws. -/
def fsReadFail : FS :=
  { emptyFS with files := fun q => if q = "w/b" then .present (some "t") none else .absent }

/-! The claims. -/

/-- C1: refuted on the code.  With base "w", paths ["a", "b"] and no file on
disk, _loadContent returns three status entries for two input paths — the
winner-scan loop pushes a status for every path it visits and the second loop
pushes another status for every path of index at least 1 — so the status
list is not one-entry-per-input-path. -/
theorem loadContent_status_list_duplicates :
    (_loadContent emptyFS (some "w") ["a", "b"]).2 =
      [{ file := "a", exists_ := false, lastModified := none },
       { file := "b", exists_ := false, lastModified := none },
       { file := "b", exists_ := false, lastModified := none }] ∧
      (_loadContent emptyFS (some "w") ["a", "b"]).2.length ≠
        (["a", "b"] : List String).length := by
  constructor
  · rfl
  · decide

/-- C2: with a workspace folder present, _saveToAllFiles produces exactly one
outcome per configured path in input order (so a failure on one path never
skips the remaining paths); a failing path carries an error message and a
succeeding path carries none. -/
theorem saveToAllFiles_one_outcome_per_path (fs : FS) (base content : String)
    (paths : List String) (results : List SaveOutcome) (fb : Feedback) (fs' : FS)
    (h : _saveToAllFiles fs (some base) paths content = (.saved results fb, fs')) :
    results.map (fun r => r.file) = paths ∧
      ∀ r ∈ results,
        (r.success = true → r.error = none) ∧ (r.success = false → r.error ≠ none) := by
  simp only [_saveToAllFiles, Prod.mk.injEq, SaveReport.saved.injEq] at h
  obtain ⟨⟨h1, -⟩, -⟩ := h
  subst h1
  exact ⟨saveLoop_map_file base content paths fs, saveLoop_outcome_error base content paths fs⟩

theorem saveToAllFiles_one_outcome_per_path_witness :
    (saveLoop fsFailB "w" ["a", "b", "c"] "x").1.map (fun r => r.file) = ["a", "b", "c"] :=
  (saveToAllFiles_one_outcome_per_path fsFailB "w" "x" ["a", "b", "c"] _ _ _ rfl).1

/-- C3: when the path list splits as pre ++ winner :: post where nothing in
pre is existing-and-readable and the winner is, _loadContent returns exactly
the winner's content, whatever comes after the winner (the scan stops there
and later files are never consulted for content). -/
theorem loadContent_first_readable_wins (fs : FS) (base w cw : String)
    (pre post : List String)
    (hpre : ∀ p ∈ pre, readableContent fs (joinPath base p) = none)
    (hw : readableContent fs (joinPath base w) = some cw) :
    (_loadContent fs (some base) (pre ++ w :: post)).1 = cw := by
  have h := loadScan_content_winner base w cw pre fs post hpre hw
  simpa [_loadContent] using h

theorem loadContent_first_readable_wins_witness :
    (_loadContent fsC3 (some "w") (["a"] ++ "b" :: ["z"])).1 = "hello" :=
  loadContent_first_readable_wins fsC3 "w" "b" "hello" ["a"] ["z"] (by decide) (by decide)

/-- C4: round-trip.  If _saveToAllFiles runs with a workspace folder on a
non-empty path list and the outcome recorded for the first path is a success,
then _loadContent on the resulting file system returns exactly the saved
content. -/
theorem synchronize_then_resolve_roundtrip (fs : FS) (base p content : String)
    (rest : List String) (results : List SaveOutcome) (fb : Feedback) (fs' : FS)
    (h : _saveToAllFiles fs (some base) (p :: rest) content = (.saved results fb, fs'))
    (r0 : SaveOutcome) (hr : results.head? = some r0) (hs : r0.success = true) :
    (_loadContent fs' (some base) (p :: rest)).1 = content := by
  simp only [_saveToAllFiles, Prod.mk.injEq, SaveReport.saved.injEq] at h
  obtain ⟨⟨h1, -⟩, h3⟩ := h
  subst h1
  subst h3
  rw [saveLoop_cons] at hr ⊢
  simp only [List.head?_cons, Option.some.injEq] at hr
  subst hr
  have hw := saveOne_success_files fs base p content hs
  have h2 : (saveOne fs base p content).2.files (joinPath base p) =
      .present (some (saveOne fs base p content).2.mtimeNow) (some content) := by
    rw [saveOne_mtimeNow]; exact hw
  have h4 := saveLoop_files_stable base content (joinPath base p) rest
    (saveOne fs base p content).2 h2
  simp only [_loadContent]
  rw [loadScan_winner _ base p _ content rest h4]

theorem synchronize_then_resolve_roundtrip_witness :
    (_loadContent (saveLoop emptyFS "w" ["a", "b"] "hello").2 (some "w") ["a", "b"]).1 =
      "hello" :=
  synchronize_then_resolve_roundtrip emptyFS "w" "a" "hello" ["b"] _ _ _ rfl _ rfl (by decide)

/-- C5: if _saveToAllFiles runs with a workspace folder and every recorded
outcome is a success, then afterwards every configured path exists as a
readable file holding exactly the saved content (full replacement), and its
parent directory exists (created via the recursive directory-creation step
when it was missing). -/
theorem synchronize_all_success_creates_files (fs : FS) (base content : String)
    (paths : List String) (results : List SaveOutcome) (fb : Feedback) (fs' : FS)
    (h : _saveToAllFiles fs (some base) paths content = (.saved results fb, fs'))
    (hall : ∀ r ∈ results, r.success = true) :
    ∀ p ∈ paths,
      fs'.files (joinPath base p) = .present (some fs.mtimeNow) (some content) ∧
        fs'.dirs (dirname (joinPath base p)) = true := by
  simp only [_saveToAllFiles, Prod.mk.injEq, SaveReport.saved.injEq] at h
  obtain ⟨⟨h1, -⟩, h3⟩ := h
  subst h1
  subst h3
  exact saveLoop_all_success base content paths fs hall

theorem synchronize_all_success_creates_files_witness :
    (saveLoop emptyFS "w" ["a", "d/b"] "x").2.files (joinPath "w" "d/b") =
        .present (some emptyFS.mtimeNow) (some "x") ∧
      (saveLoop emptyFS "w" ["a", "d/b"] "x").2.dirs (dirname (joinPath "w" "d/b")) = true :=
  synchronize_all_success_creates_files emptyFS "w" "x" ["a", "d/b"] _ _ _ rfl
    (by decide) "d/b" (by decide)

/-- C6: refuted on the code.  A path whose statSync succeeds but whose
readFileSync throws (here w/b, reached by the winner scan) receives an
exists=false entry from the scan loop AND an exists=true entry with its
mtime from the second status loop, so the status output distinguishes it
from a genuinely absent path, which yields exists=false entries only. -/
theorem loadContent_unreadable_distinguishable :
    (_loadContent fsReadFail (some "w") ["a", "b"]).2 =
      [{ file := "a", exists_ := false, lastModified := none },
       { file := "b", exists_ := false, lastModified := none },
       { file := "b", exists_ := true, lastModified := some "t" }] ∧
      (_loadContent fsReadFail (some "w") ["a", "b"]).2 ≠
        (_loadContent emptyFS (some "w") ["a", "b"]).2 := by
  constructor
  · rfl
  · decide

/-- C7: _saveToAllFiles without a workspace folder reports the single
top-level noWorkspace error, produces no per-path outcomes, and leaves the
file system untouched. -/
theorem saveToAllFiles_no_workspace (fs : FS) (paths : List String) (content : String) :
    _saveToAllFiles fs none paths content = (.noWorkspace, fs) := rfl

/-- C8: _loadContent with no workspace folder, and _loadContent on an empty
path list, both return empty content and an empty status list as a defined
no-op result. -/
theorem loadContent_no_root_and_empty (fs : FS) (paths : List String) (base : String) :
    _loadContent fs none paths = ("", []) ∧ _loadContent fs (some base) [] = ("", []) :=
  ⟨rfl, rfl⟩

/-- C9: when no configured path exists on disk, _loadContent returns empty
content and every entry of the status list has exists = false. -/
theorem loadContent_all_absent (fs : FS) (base : String) (paths : List String)
    (h : ∀ p ∈ paths, fs.files (joinPath base p) = .absent) :
    (_loadContent fs (some base) paths).1 = "" ∧
      ∀ s ∈ (_loadContent fs (some base) paths).2, s.exists_ = false := by
  have hscan := loadScan_all_absent base paths fs h
  constructor
  · simpa [_loadContent] using hscan.1
  · intro s hs
    simp only [_loadContent] at hs
    rcases List.mem_append.mp hs with h1 | h1
    · exact hscan.2 s h1
    · simp only [statusRest, List.mem_map] at h1
      obtain ⟨q, hq, rfl⟩ := h1
      exact statusOf_absent fs base q (h q (List.mem_of_mem_drop hq))

theorem loadContent_all_absent_witness :
    (_loadContent emptyFS (some "w") ["a", "b"]).1 = "" :=
  (loadContent_all_absent emptyFS "w" ["a", "b"] (by decide)).1

/-- C10: _saveToAllFiles with a workspace folder and an empty path list
returns an empty outcomes array, the all-success information feedback with
zero saves, and leaves the file system untouched. -/
theorem saveToAllFiles_empty_list (fs : FS) (base content : String) :
    _saveToAllFiles fs (some base) [] content = (.saved [] (.info 0), fs) := rfl

end AgentRulesSync
